import Mathlib

/-
Verification of the LLM-update parsing / apply / backup-restore core of
`prompter` (src/prompter/app.py), as a shallow embedding in Lean 4.

The embedding models:
  * `LLMUpdateParser.parse_response`  (app.py lines 81-146)
  * the apply branch of `apply_or_restore_callback` (app.py lines 1138-1195)
  * the restore branch of `apply_or_restore_callback` (app.py lines 1197-1230)

Python strings are modelled as Lean `String`; every string primitive the code
uses (`str.strip`, `str.lower`, `str.startswith`, `str.split(":", 1)`,
`str.splitlines`, `"\n".join`) is re-implemented below by structural recursion
on the character list, so that all definitions evaluate by kernel reduction.
The filesystem is modelled as an association list from path to file content;
fallible OS calls (`os.rename`, `os.remove`, `os.makedirs`, `open(...,"w")`)
are modelled with an error oracle `errOn : String → Option String` giving, per
path, the message of the exception raised by operations touching that path
(none = the operation succeeds).  Directories are not tracked as filesystem
objects: `os.makedirs` only matters here as a possible exception source.
`str.splitlines` is modelled for "\n"-separated text (the other Unicode line
terminators Python recognises are out of scope).
-/

namespace Prompter

/-- Whitespace characters removed by Python `str.strip()` (ASCII part). -/
def isPySpace (c : Char) : Bool :=
  c = ' ' || c = '\t' || c = '\n' || c = '\r' || c = '\x0b' || c = '\x0c'

/-- Model of Python `str.strip()`: drop leading and trailing whitespace. -/
def pyStrip (s : String) : String :=
  ⟨((s.data.dropWhile isPySpace).reverse.dropWhile isPySpace).reverse⟩

/-- Lower-case one character (ASCII, as Python `str.lower` acts on ASCII). -/
def lowerChar (c : Char) : Char :=
  if 65 ≤ c.toNat ∧ c.toNat ≤ 90 then Char.ofNat (c.toNat + 32) else c

/-- Model of Python `str.lower()`. -/
def pyLower (s : String) : String :=
  ⟨s.data.map lowerChar⟩

/-- Model of Python `str.startswith(pre)`. -/
def pyStartsWith (s pre : String) : Bool :=
  pre.data.isPrefixOf s.data

/-- Split a character list at the first ':', when there is one. -/
def splitFirstColonChars : List Char → Option (List Char × List Char)
  | [] => none
  | c :: cs =>
    if c = ':' then some ([], cs)
    else
      match splitFirstColonChars cs with
      | none => none
      | some (a, b) => some (c :: a, b)

/-- Model of Python `s.split(":", 1)`: at most one split, at the first colon. -/
def pySplit1Colon (s : String) : List String :=
  match splitFirstColonChars s.data with
  | none => [s]
  | some (a, b) => [⟨a⟩, ⟨b⟩]

/-- Split a character list on newline characters (`"".split`-style: the empty
list of characters yields one empty segment). -/
def splitNlChars : List Char → List (List Char)
  | [] => [[]]
  | c :: cs =>
    if c = '\n' then [] :: splitNlChars cs
    else
      match splitNlChars cs with
      | [] => [[c]]
      | l :: ls => (c :: l) :: ls

/-- Model of Python `str.splitlines()` for "\n"-separated text: the empty
string has no lines, and a trailing newline does not open a final empty
line. -/
def splitlines (s : String) : List String :=
  if s.data.isEmpty then []
  else
    let parts := (splitNlChars s.data).map fun cs => (⟨cs⟩ : String)
    if s.data.getLast? = some '\n' then parts.dropLast else parts

/-- One parsed edit block, as produced by `LLMUpdateParser.parse_response`
(the dicts appended to `blocks` at app.py line 128). -/
structure ParsedEdit where
  filename : String
  new_content : String
  deriving Repr, DecidableEq

/-- State of the line scanner of `parse_response` (app.py lines 86-89): the
accumulated blocks, `current_file`, `current_code`, the two boolean flags, and
the pending error message (Python returns the moment it sets an error; here
the error freezes the state instead, which is observably the same). -/
structure ParseState where
  blocks : List ParsedEdit
  currentFile : Option String
  currentCode : List String
  expectingStart : Bool
  inCodeBlock : Bool
  err : Option String
  deriving Repr, DecidableEq

/-- Initial scanner state (app.py lines 83-89). -/
def initState : ParseState := ⟨[], none, [], false, false, none⟩

/-- Render `current_file` the way a Python f-string renders it. -/
def optFileStr : Option String → String
  | some s => s
  | none => "None"

/-- One iteration of the `for idx, line in enumerate(lines)` loop of
`parse_response` (app.py lines 91-139), on 0-based index `idx`. -/
def stepLine (st : ParseState) (idx : Nat) (line : String) : ParseState :=
  if st.err.isSome then st
  else
    let ls := pyStrip line
    if pyStartsWith (pyLower ls) "file:" then
      if st.inCodeBlock then
        { st with err := some ("Missing '--- END CODE ---' before starting new file block at line "
            ++ toString (idx + 1)) }
      else
        let parts := pySplit1Colon ls
        if parts.length < 2 then
          { st with err := some ("Invalid file line at line " ++ toString (idx + 1)) }
        else
          { st with currentFile := some (pyStrip (parts.getD 1 "")),
                    currentCode := [],
                    expectingStart := true,
                    inCodeBlock := false }
    else if st.expectingStart then
      if ls = "--- START CODE ---" then
        { st with expectingStart := false, inCodeBlock := true }
      else
        { st with err := some ("Expected '--- START CODE ---' after file line for file '"
            ++ optFileStr st.currentFile ++ "' but got '" ++ ls ++ "' at line "
            ++ toString (idx + 1)) }
    else if st.inCodeBlock then
      if ls = "--- END CODE ---" then
        { st with blocks := st.blocks
            ++ [⟨optFileStr st.currentFile, "\n".intercalate st.currentCode⟩],
                  inCodeBlock := false,
                  currentFile := none,
                  currentCode := [] }
      else
        { st with currentCode := st.currentCode ++ [line] }
    else st

/-- Run the scanner over the remaining lines, `idx` being the 0-based index of
the first of them. -/
def parseLoop : Nat → ParseState → List String → ParseState
  | _, st, [] => st
  | idx, st, l :: ls => parseLoop (idx + 1) (stepLine st idx l) ls

/-- Post-loop handling of `parse_response` (app.py lines 141-146), together
with the early `return [], error_message` on a recorded error. -/
def finishParse (st : ParseState) : List ParsedEdit × String :=
  match st.err with
  | some e => ([], e)
  | none =>
    if st.inCodeBlock then
      ([], "Missing '--- END CODE ---' for file '" ++ optFileStr st.currentFile ++ "'")
    else (st.blocks, "")

/-- Parse a list of lines (the body of `parse_response` after `splitlines`). -/
def parseLines (lines : List String) : List ParsedEdit × String :=
  finishParse (parseLoop 0 initState lines)

/-- Model of `LLMUpdateParser.parse_response` (app.py lines 81-146). -/
def parse_response (text : String) : List ParsedEdit × String :=
  parseLines (splitlines text)

/-- Line classifier: does the scanner read this line as a `file:` line
(app.py line 95)? -/
def isFileLine (l : String) : Bool :=
  pyStartsWith (pyLower (pyStrip l)) "file:"

/-- Line classifier: exact start delimiter after trimming (app.py line 114). -/
def isStartLine (l : String) : Bool :=
  pyStrip l = "--- START CODE ---"

/-- Line classifier: exact end delimiter after trimming (app.py line 126). -/
def isEndLine (l : String) : Bool :=
  pyStrip l = "--- END CODE ---"

/-- The path the scanner extracts from a `file:` line (app.py lines 101-106),
or `none` when the line is not a `file:` line or hits the
`len(parts) < 2` branch. -/
def fileLinePath (l : String) : Option String :=
  let ls := pyStrip l
  if pyStartsWith (pyLower ls) "file:" then
    let parts := pySplit1Colon ls
    if parts.length < 2 then none
    else some (pyStrip (parts.getD 1 ""))
  else none

/-- Well-formed input shape of claim C1, relative to the scanner's own line
classification: any number of blocks (`file:` line, exact start delimiter,
body lines that are neither `file:` lines nor the end delimiter, exact end
delimiter), with arbitrary non-`file:` lines before, between and after
blocks.  The second argument is the list of edits such an input denotes. -/
inductive WFBlocks : List String → List ParsedEdit → Prop
  | nil : WFBlocks [] []
  | junk {l : String} {ls : List String} {bs : List ParsedEdit} :
      isFileLine l = false → WFBlocks ls bs → WFBlocks (l :: ls) bs
  | block {f s e : String} {body rest : List String} {p : String}
      {bs : List ParsedEdit} :
      fileLinePath f = some p →
      isStartLine s = true →
      (∀ l ∈ body, isFileLine l = false ∧ isEndLine l = false) →
      isEndLine e = true →
      WFBlocks rest bs →
      WFBlocks (f :: s :: (body ++ e :: rest))
        (⟨p, "\n".intercalate body⟩ :: bs)

/-- State the scanner is in between blocks: accumulated blocks `B`, no current
file, no pending code, no flag set, no error. -/
def idleState (B : List ParsedEdit) : ParseState := ⟨B, none, [], false, false, none⟩

/-- Filesystem model: an association list from absolute path to file content
(first entry for a path wins).  Directories are not tracked. -/
abbrev FS := List (String × String)

/-- Content of the file at a path, when one exists. -/
def fsGet : FS → String → Option String
  | [], _ => none
  | (k, v) :: rest, p => if k = p then some v else fsGet rest p

/-- Remove every entry for a path. -/
def fsErase : FS → String → FS
  | [], _ => []
  | (k, v) :: rest, p => if k = p then fsErase rest p else (k, v) :: fsErase rest p

/-- Full-replacement write of a file (`open(file_path, "w")` + `write`). -/
def fsWrite (fs : FS) (p c : String) : FS := (p, c) :: fsErase fs p

/-- Backup record appended by the apply loop (app.py lines 1162-1164). -/
structure BackupRecord where
  original_file : String
  backup_file : String
  deriving Repr, DecidableEq

/-- Model of `os.rename(src, dst)` with the error oracle `errOn`: operations
touching a path `p` with `errOn p = some e` raise the exception text `e`;
renaming a missing source raises like Python's FileNotFoundError. -/
def tryRename (errOn : String → Option String) (fs : FS) (src dst : String) :
    Except String FS :=
  match errOn src with
  | some e => .error e
  | none =>
    match errOn dst with
    | some e => .error e
    | none =>
      match fsGet fs src with
      | none => .error ("No such file or directory: '" ++ src ++ "'")
      | some c => .ok (fsWrite (fsErase fs src) dst c)

/-- Model of `os.remove(p)` with the error oracle. -/
def tryRemove (errOn : String → Option String) (fs : FS) (p : String) :
    Except String FS :=
  match errOn p with
  | some e => .error e
  | none =>
    match fsGet fs p with
    | none => .error ("No such file or directory: '" ++ p ++ "'")
    | some _ => .ok (fsErase fs p)

/-- Model of the `os.makedirs(dir_name, exist_ok=True)` step guarded by
`if dir_name and not os.path.exists(dir_name)` (app.py lines 1165-1167):
directories are not tracked, so the call only matters as a possible
exception source on the directory path. -/
def tryMakedirs (errOn : String → Option String) (d : String) :
    Except String Unit :=
  if d = "" then .ok ()
  else
    match errOn d with
    | some e => .error e
    | none => .ok ()

/-- Model of writing `new_content` to `file_path` (app.py lines 1168-1169). -/
def tryWrite (errOn : String → Option String) (fs : FS) (p c : String) :
    Except String FS :=
  match errOn p with
  | some e => .error e
  | none => .ok (fsWrite fs p c)

/-- Model of `os.path.join(a, b)` for POSIX paths and two components: an
absolute second component replaces the first, otherwise the parts are glued
with a single slash. -/
def posixJoin (a b : String) : String :=
  if b.data.head? = some '/' then b
  else if a.data = [] then b
  else if a.data.getLast? = some '/' then a ++ b
  else a ++ "/" ++ b

/-- Model of `os.path.dirname` for POSIX paths: everything before the last
slash, with trailing slashes stripped unless the result is all slashes. -/
def dirname (p : String) : String :=
  let rest := p.data.reverse.dropWhile (fun c => !(c == '/'))
  let head := rest.reverse
  if head = [] then ""
  else if head.all (fun c => c == '/') then ⟨head⟩
  else ⟨(head.reverse.dropWhile (fun c => c == '/')).reverse⟩

/-- Model of `os.path.basename` for POSIX paths. -/
def basename (p : String) : String :=
  ⟨(p.data.reverse.takeWhile (fun c => !(c == '/'))).reverse⟩

/-- State threaded through the apply loop: the filesystem, the running
backup list (`current_backups`) and the applied filenames
(`applied_files`). -/
structure ApplyState where
  fs : FS
  backups : List BackupRecord
  applied : List String
  deriving Repr, DecidableEq

/-- Result of the apply loop: normal completion, or the early
`return f"Error applying changes to {fn}: {e}", ...` with the filesystem and
backup list as they stand at the failure (app.py lines 1171-1172). -/
inductive ApplyResult where
  | ok (st : ApplyState)
  | err (msg : String) (st : ApplyState)
  deriving Repr, DecidableEq

/-- Processing of one selected edit inside the apply loop (the `try` block,
app.py lines 1157-1170): back up an existing target by renaming it to
`<path>.bak` and appending the record, ensure the parent directory, write
the new content.  An exception yields the failing message together with the
state at failure (note a backup record appended before a later failing step
stays appended, as in the Python). -/
def applyStep (errOn : String → Option String) (folder : String)
    (item : ParsedEdit) (fs : FS) (bk : List BackupRecord) (ap : List String) :
    Except (String × ApplyState) ApplyState :=
  let file_path := posixJoin folder item.filename
  let backupRes : Except String (FS × List BackupRecord) :=
    if (fsGet fs file_path).isSome then
      match tryRename errOn fs file_path (file_path ++ ".bak") with
      | .error e => .error e
      | .ok fs1 => .ok (fs1, bk ++ [⟨file_path, file_path ++ ".bak"⟩])
    else .ok (fs, bk)
  match backupRes with
  | .error e =>
    .error ("Error applying changes to " ++ item.filename ++ ": " ++ e, ⟨fs, bk, ap⟩)
  | .ok (fs1, bk1) =>
    match tryMakedirs errOn (dirname file_path) with
    | .error e =>
      .error ("Error applying changes to " ++ item.filename ++ ": " ++ e, ⟨fs1, bk1, ap⟩)
    | .ok _ =>
      match tryWrite errOn fs1 file_path item.new_content with
      | .error e =>
        .error ("Error applying changes to " ++ item.filename ++ ": " ++ e, ⟨fs1, bk1, ap⟩)
      | .ok fs2 => .ok ⟨fs2, bk1, ap ++ [item.filename]⟩

/-- The `for item in parsed_changes` loop of the apply branch (app.py lines
1151-1172): edits whose checkbox is off are skipped
(`apply_dict.get(fn, False)`), a failing edit aborts the whole loop. -/
def applyItems (errOn : String → Option String) (folder : String)
    (applyDict : String → Bool) :
    List ParsedEdit → FS → List BackupRecord → List String → ApplyResult
  | [], fs, bk, ap => .ok ⟨fs, bk, ap⟩
  | item :: rest, fs, bk, ap =>
    if applyDict item.filename then
      match applyStep errOn folder item fs bk ap with
      | .error (m, st) => .err m st
      | .ok st => applyItems errOn folder applyDict rest st.fs st.backups st.applied
    else applyItems errOn folder applyDict rest fs bk ap

/-- The apply branch after its guards (app.py lines 1146-1195): run the loop
and assemble the feedback message. -/
def applyChanges (errOn : String → Option String) (folder : String)
    (applyDict : String → Bool) (parsed_changes : List ParsedEdit)
    (fs : FS) (current_backups : List BackupRecord) :
    String × FS × List BackupRecord :=
  match applyItems errOn folder applyDict parsed_changes fs current_backups [] with
  | .err m st => (m, st.fs, st.backups)
  | .ok st =>
    if st.applied = [] then
      ("No files were selected to apply changes.", st.fs, st.backups)
    else
      ("Updated/created (old versions renamed to *.bak): "
        ++ ", ".intercalate st.applied, st.fs, st.backups)

/-- Result of the restore branch: the feedback message, the backup list as
returned (the code returns `current_backups` on every path) and the
filesystem. -/
structure RestoreResult where
  msg : String
  backups : List BackupRecord
  fs : FS
  deriving Repr, DecidableEq

/-- The restore branch of `apply_or_restore_callback` (app.py lines
1197-1230): guard against an empty selection or empty record list, find the
first record whose `backup_file` matches, delete the current original file
when it exists, then rename the backup back onto the original path. -/
def restoreBackup (errOn : String → Option String) (fs : FS)
    (current_backups : List BackupRecord) (selected_backup_file : String) :
    RestoreResult :=
  if selected_backup_file = "" ∨ current_backups = [] then
    ⟨"No backup selected or no backups available.", current_backups, fs⟩
  else
    match current_backups.filter
        (fun b => decide (b.backup_file = selected_backup_file)) with
    | [] => ⟨"Backup file not found in records.", current_backups, fs⟩
    | entry :: _ =>
      let backup_file := entry.backup_file
      let original_file := entry.original_file
      let okMsg := "Restored backup " ++ basename backup_file ++ " → "
        ++ basename original_file
      if (fsGet fs original_file).isSome then
        match tryRemove errOn fs original_file with
        | .error e => ⟨"Error restoring backup: " ++ e, current_backups, fs⟩
        | .ok fs1 =>
          match tryRename errOn fs1 backup_file original_file with
          | .error e => ⟨"Error restoring backup: " ++ e, current_backups, fs1⟩
          | .ok fs2 => ⟨okMsg, current_backups, fs2⟩
      else
        match tryRename errOn fs backup_file original_file with
        | .error e => ⟨"Error restoring backup: " ++ e, current_backups, fs⟩
        | .ok fs2 => ⟨okMsg, current_backups, fs2⟩

lemma isFileLine_of_isStartLine {s : String} (h : isStartLine s = true) :
    isFileLine s = false := by
  simp only [isStartLine, decide_eq_true_eq] at h
  unfold isFileLine
  rw [h]
  decide

lemma isFileLine_of_isEndLine {e : String} (h : isEndLine e = true) :
    isFileLine e = false := by
  simp only [isEndLine, decide_eq_true_eq] at h
  unfold isFileLine
  rw [h]
  decide

lemma stepLine_err {st : ParseState} {idx : Nat} {l : String}
    (h : st.err.isSome = true) : stepLine st idx l = st := by
  unfold stepLine
  rw [h]
  simp

lemma parseLoop_err {ls : List String} {st : ParseState} {idx : Nat}
    (h : st.err.isSome = true) : parseLoop idx st ls = st := by
  induction ls generalizing idx with
  | nil => rfl
  | cons l ls ih => rw [parseLoop, stepLine_err h]; exact ih

lemma stepLine_idle_junk {l : String} {B : List ParsedEdit} {idx : Nat}
    (h : isFileLine l = false) : stepLine (idleState B) idx l = idleState B := by
  unfold isFileLine at h
  simp [stepLine, idleState, h]

lemma stepLine_idle_file {f p : String} {B : List ParsedEdit} {idx : Nat}
    (h : fileLinePath f = some p) :
    stepLine (idleState B) idx f = ⟨B, some p, [], true, false, none⟩ := by
  simp only [fileLinePath] at h
  split at h
  case isTrue hs =>
    split at h
    case isTrue hlen => cases h
    case isFalse hlen =>
      injection h with h
      rw [List.getD_eq_getElem?_getD] at h
      simp [stepLine, idleState, hs, hlen, h]
  case isFalse hs => cases h

lemma stepLine_expect_start {s : String} {B : List ParsedEdit} {p : String} {idx : Nat}
    (h : isStartLine s = true) :
    stepLine ⟨B, some p, [], true, false, none⟩ idx s
      = ⟨B, some p, [], false, true, none⟩ := by
  have hf : isFileLine s = false := isFileLine_of_isStartLine h
  unfold isFileLine at hf
  simp only [isStartLine, decide_eq_true_eq] at h
  rw [h] at hf
  simp [stepLine, hf, h]

lemma stepLine_expect_bad {b : String} {B : List ParsedEdit} {p : String} {idx : Nat}
    (hf : isFileLine b = false) (hs : isStartLine b = false) :
    stepLine ⟨B, some p, [], true, false, none⟩ idx b
      = ⟨B, some p, [], true, false,
          some ("Expected '--- START CODE ---' after file line for file '" ++ p
            ++ "' but got '" ++ pyStrip b ++ "' at line " ++ toString (idx + 1))⟩ := by
  unfold isFileLine at hf
  simp only [isStartLine, decide_eq_false_iff_not] at hs
  simp [stepLine, hf, hs, optFileStr]

lemma stepLine_inblock_body {l : String} {B : List ParsedEdit} {p : String}
    {code : List String} {idx : Nat}
    (hf : isFileLine l = false) (he : isEndLine l = false) :
    stepLine ⟨B, some p, code, false, true, none⟩ idx l
      = ⟨B, some p, code ++ [l], false, true, none⟩ := by
  unfold isFileLine at hf
  simp only [isEndLine, decide_eq_false_iff_not] at he
  simp [stepLine, hf, he]

lemma stepLine_inblock_end {e : String} {B : List ParsedEdit} {p : String}
    {code : List String} {idx : Nat} (he : isEndLine e = true) :
    stepLine ⟨B, some p, code, false, true, none⟩ idx e
      = idleState (B ++ [⟨p, "\n".intercalate code⟩]) := by
  have hf : isFileLine e = false := isFileLine_of_isEndLine he
  unfold isFileLine at hf
  simp only [isEndLine, decide_eq_true_eq] at he
  rw [he] at hf
  simp [stepLine, idleState, hf, he, optFileStr]

lemma stepLine_inblock_file {l : String} {B : List ParsedEdit} {p : String}
    {code : List String} {idx : Nat} (hf : isFileLine l = true) :
    stepLine ⟨B, some p, code, false, true, none⟩ idx l
      = ⟨B, some p, code, false, true,
          some ("Missing '--- END CODE ---' before starting new file block at line "
            ++ toString (idx + 1))⟩ := by
  unfold isFileLine at hf
  simp [stepLine, hf]

lemma parseLoop_append (xs : List String) :
    ∀ (idx : Nat) (st : ParseState) (ys : List String),
      parseLoop idx st (xs ++ ys)
        = parseLoop (idx + xs.length) (parseLoop idx st xs) ys := by
  induction xs with
  | nil => intro idx st ys; simp [parseLoop]
  | cons x xs ih =>
    intro idx st ys
    simp only [List.cons_append, parseLoop, List.length_cons, List.append_eq]
    rw [ih]
    congr 1
    omega

lemma parseLoop_body {body : List String}
    (hb : ∀ l ∈ body, isFileLine l = false ∧ isEndLine l = false) :
    ∀ (idx : Nat) (B : List ParsedEdit) (p : String) (code rest : List String),
      parseLoop idx ⟨B, some p, code, false, true, none⟩ (body ++ rest)
        = parseLoop (idx + body.length) ⟨B, some p, code ++ body, false, true, none⟩ rest := by
  induction body with
  | nil => intro idx B p code rest; simp [parseLoop]
  | cons l body ih =>
    intro idx B p code rest
    have hl := hb l (List.mem_cons_self l body)
    simp only [List.cons_append, parseLoop, List.length_cons, List.append_eq]
    rw [stepLine_inblock_body hl.1 hl.2]
    rw [ih (fun x hx => hb x (List.mem_cons_of_mem _ hx))]
    have harr : (code ++ [l]) ++ body = code ++ l :: body := by simp
    rw [harr]
    congr 1
    omega

lemma parseLoop_wf {lines : List String} {bs : List ParsedEdit} (h : WFBlocks lines bs) :
    ∀ (idx : Nat) (B : List ParsedEdit),
      parseLoop idx (idleState B) lines = idleState (B ++ bs) := by
  induction h with
  | nil => intro idx B; simp [parseLoop]
  | junk hl _ ih =>
    intro idx B
    rw [parseLoop, stepLine_idle_junk hl, ih]
  | block hf hs hb he _ ih =>
    intro idx B
    rw [parseLoop, stepLine_idle_file hf]
    rw [parseLoop, stepLine_expect_start hs]
    rw [parseLoop_body hb]
    rw [parseLoop, stepLine_inblock_end he]
    rw [ih]
    simp

lemma finishParse_idle (B : List ParsedEdit) : finishParse (idleState B) = (B, "") := rfl

/-- C1: for every input text consisting of well-formed blocks (a `file:` line,
the exact start delimiter, body lines, the exact end delimiter, with other
non-`file:` lines permitted between blocks), `parse_response` returns exactly
the denoted edits, in source order, with an empty error message; each edit's
content is the body lines joined with a single newline and no trailing
newline. -/
theorem parse_response_wellformed (text : String) (bs : List ParsedEdit)
    (h : WFBlocks (splitlines text) bs) :
    parse_response text = (bs, "") := by
  have h0 := parseLoop_wf h 0 []
  unfold parse_response parseLines
  rw [show initState = idleState [] from rfl, h0]
  simp [finishParse, idleState]

/-- Witness for C1 at the concrete one-block input of the spec's scenario. -/
theorem parse_response_wellformed_witness :
    parse_response "file: a.py\n--- START CODE ---\nprint(1)\n--- END CODE ---"
      = ([⟨"a.py", "print(1)"⟩], "") := by
  have hb : WFBlocks ("file: a.py" :: "--- START CODE ---" ::
      (["print(1)"] ++ "--- END CODE ---" :: ([] : List String)))
      (⟨"a.py", "\n".intercalate ["print(1)"]⟩ :: []) :=
    WFBlocks.block (by decide) (by decide) (by decide) (by decide) WFBlocks.nil
  have hsplit : splitlines "file: a.py\n--- START CODE ---\nprint(1)\n--- END CODE ---"
      = ["file: a.py", "--- START CODE ---", "print(1)", "--- END CODE ---"] := by decide
  exact parse_response_wellformed _ _ (by rw [hsplit]; exact hb)

/-- C9: an input whose final line is a `file:` line that is never followed by
a start delimiter does not fail: the parser returns the blocks completed so
far with an empty error message, silently discarding the dangling
`file:` line. -/
theorem dangling_file_line_spec (text : String) (pre : List String)
    (bs : List ParsedEdit) (f p : String)
    (hsplit : splitlines text = pre ++ [f])
    (hw : WFBlocks pre bs) (hf : fileLinePath f = some p) :
    parse_response text = (bs, "") := by
  unfold parse_response parseLines
  rw [hsplit, show initState = idleState [] from rfl]
  rw [parseLoop_append, parseLoop_wf hw]
  rw [parseLoop, stepLine_idle_file hf, parseLoop]
  simp [finishParse]

/-- Witness for C9: a complete block followed by a dangling `file:` line. -/
theorem dangling_file_line_spec_witness :
    parse_response "file: a.py\n--- START CODE ---\nx\n--- END CODE ---\nfile: dangling.py"
      = ([⟨"a.py", "x"⟩], "") := by
  have hw : WFBlocks ("file: a.py" :: "--- START CODE ---" ::
      (["x"] ++ "--- END CODE ---" :: ([] : List String)))
      (⟨"a.py", "\n".intercalate ["x"]⟩ :: []) :=
    WFBlocks.block (by decide) (by decide) (by decide) (by decide) WFBlocks.nil
  exact dangling_file_line_spec _
    ["file: a.py", "--- START CODE ---", "x", "--- END CODE ---"] _ "file: dangling.py"
    "dangling.py" (by decide) hw (by decide)

lemma parseLoop_body_nil {body : List String}
    (hb : ∀ l ∈ body, isFileLine l = false ∧ isEndLine l = false)
    (idx : Nat) (B : List ParsedEdit) (p : String) (code : List String) :
    parseLoop idx ⟨B, some p, code, false, true, none⟩ body
      = ⟨B, some p, code ++ body, false, true, none⟩ := by
  have h := parseLoop_body hb idx B p code []
  simpa [parseLoop] using h

/-- C3 counterexample: a `file:` line whose path after the colon is empty is
not rejected; the parse succeeds with an empty error message and produces a
`ParsedEdit` whose filename is the empty string, instead of failing with an
error naming line 1. -/
theorem parse_empty_path_counterexample :
    parse_response "file:\n--- START CODE ---\nx\n--- END CODE ---"
      = ([⟨"", "x"⟩], "") := by decide

/-- C3 amended: `parse_response` accepts a `file:` line with an empty path
after the first colon (the `Invalid file line` branch checks only that a
colon-split produced two parts, which a `file:` line always does); the block
parses to a `ParsedEdit` with an empty filename and the error message stays
empty. -/
theorem parse_empty_path_accepted (text : String) (f s e : String)
    (body : List String)
    (hsplit : splitlines text = f :: s :: (body ++ [e]))
    (hf : fileLinePath f = some "")
    (hs : isStartLine s = true)
    (hb : ∀ l ∈ body, isFileLine l = false ∧ isEndLine l = false)
    (he : isEndLine e = true) :
    parse_response text = ([⟨"", "\n".intercalate body⟩], "") := by
  have hw : WFBlocks (f :: s :: (body ++ e :: []))
      [⟨"", "\n".intercalate body⟩] :=
    WFBlocks.block hf hs hb he WFBlocks.nil
  unfold parse_response parseLines
  rw [hsplit, show initState = idleState [] from rfl, parseLoop_wf hw 0 []]
  simp [finishParse, idleState]

/-- Witness for the amended C3: an empty path (here with a trailing blank,
stripped away) yields a block with an empty filename. -/
theorem parse_empty_path_accepted_witness :
    parse_response "file: \n--- START CODE ---\nok\n--- END CODE ---"
      = ([⟨"", "ok"⟩], "") := by
  have h := parse_empty_path_accepted "file: \n--- START CODE ---\nok\n--- END CODE ---"
    "file: " "--- START CODE ---" "--- END CODE ---" ["ok"]
    (by decide) (by decide) (by decide) (by decide) (by decide)
  exact h.trans (by decide)

/-- C4 counterexample: the line after `file: a` is `file: b`, which is not the
exact start delimiter, yet `parse_response` returns an empty list together
with an EMPTY error message (the `file:` check runs before the
expecting-start check, so a second `file:` line silently starts a new block
instead of failing). -/
theorem expect_start_counterexample :
    parse_response "file: a\nfile: b" = ([], "") := by decide

/-- C4 amended: when a `file:` line is followed by a line that is neither the
exact start delimiter nor itself a `file:` line, `parse_response` returns an
empty list and the error message naming the current file and the offending
line's 1-based index.  (A following `file:` line is instead consumed as the
start of a new block, without any error.) -/
theorem expect_start_error_spec (text : String) (pre : List String)
    (bs : List ParsedEdit) (f p b : String) (rest : List String)
    (hsplit : splitlines text = pre ++ f :: b :: rest)
    (hw : WFBlocks pre bs) (hf : fileLinePath f = some p)
    (hbf : isFileLine b = false) (hbs : isStartLine b = false) :
    parse_response text
      = ([], "Expected '--- START CODE ---' after file line for file '" ++ p
          ++ "' but got '" ++ pyStrip b ++ "' at line "
          ++ toString (pre.length + 2)) := by
  unfold parse_response parseLines
  rw [hsplit, show initState = idleState [] from rfl]
  rw [parseLoop_append, parseLoop_wf hw]
  simp only [Nat.zero_add]
  rw [parseLoop, stepLine_idle_file hf]
  rw [parseLoop, stepLine_expect_bad hbf hbs]
  rw [parseLoop_err (by simp)]
  simp [finishParse]

/-- Witness for the amended C4: prose after the `file:` line fails with the
message of the spec's scenario. -/
theorem expect_start_error_spec_witness :
    parse_response "file: b.py\nhello\n--- END CODE ---"
      = ([], "Expected '--- START CODE ---' after file line for file 'b.py' but got 'hello' at line 2") := by
  have h := expect_start_error_spec "file: b.py\nhello\n--- END CODE ---"
    [] [] "file: b.py" "b.py" "hello" ["--- END CODE ---"]
    (by decide) WFBlocks.nil (by decide) (by decide) (by decide)
  exact h.trans (by decide)

/-- C5: a block opened by the start delimiter and never closed by an exact
end-delimiter line fails with an empty list (even when earlier complete
blocks had been accumulated) and a descriptive missing-end-delimiter error:
at end of input the message names the file, and at a new `file:` line the
message names the offending 1-based line index. -/
theorem missing_end_delimiter_spec (pre : List String) (bs : List ParsedEdit)
    (f p s : String) (body : List String)
    (hw : WFBlocks pre bs) (hf : fileLinePath f = some p)
    (hs : isStartLine s = true)
    (hb : ∀ l ∈ body, isFileLine l = false ∧ isEndLine l = false) :
    (∀ text, splitlines text = pre ++ f :: s :: body →
      parse_response text
        = ([], "Missing '--- END CODE ---' for file '" ++ p ++ "'"))
    ∧ (∀ text g rest, splitlines text = pre ++ f :: s :: (body ++ g :: rest) →
        isFileLine g = true →
        parse_response text
          = ([], "Missing '--- END CODE ---' before starting new file block at line "
              ++ toString (pre.length + body.length + 3))) := by
  constructor
  · intro text hsplit
    unfold parse_response parseLines
    rw [hsplit, show initState = idleState [] from rfl]
    rw [parseLoop_append, parseLoop_wf hw]
    simp only [Nat.zero_add]
    rw [parseLoop, stepLine_idle_file hf]
    rw [parseLoop, stepLine_expect_start hs]
    rw [parseLoop_body_nil hb]
    simp [finishParse, optFileStr]
  · intro text g rest hsplit hg
    unfold parse_response parseLines
    rw [hsplit, show initState = idleState [] from rfl]
    rw [parseLoop_append, parseLoop_wf hw]
    simp only [Nat.zero_add]
    rw [parseLoop, stepLine_idle_file hf]
    rw [parseLoop, stepLine_expect_start hs]
    rw [parseLoop_body hb]
    rw [parseLoop, stepLine_inblock_file hg]
    rw [parseLoop_err (by simp)]
    have harith : pre.length + 2 + body.length + 1 = pre.length + body.length + 3 := by
      omega
    rw [harith]
    simp [finishParse]

/-- Witness for C5: both failure modes at concrete inputs. -/
theorem missing_end_delimiter_spec_witness :
    parse_response "file: a.py\n--- START CODE ---\nx"
        = ([], "Missing '--- END CODE ---' for file 'a.py'")
    ∧ parse_response "file: a.py\n--- START CODE ---\nx\nfile: b.py"
        = ([], "Missing '--- END CODE ---' before starting new file block at line 4") := by
  have h := missing_end_delimiter_spec [] [] "file: a.py" "a.py"
    "--- START CODE ---" ["x"] WFBlocks.nil (by decide) (by decide) (by decide)
  exact ⟨(h.1 _ (by decide)).trans (by decide),
         (h.2 _ "file: b.py" [] (by decide) (by decide)).trans (by decide)⟩

lemma fsGet_fsWrite_self (fs : FS) (p c : String) :
    fsGet (fsWrite fs p c) p = some c := by
  simp [fsWrite, fsGet]

lemma fsGet_fsErase (fs : FS) (p q : String) :
    fsGet (fsErase fs p) q = if p = q then none else fsGet fs q := by
  induction fs with
  | nil => simp [fsErase, fsGet]
  | cons kv rest ih =>
    obtain ⟨k, v⟩ := kv
    simp only [fsErase, fsGet]
    by_cases hk : k = p
    · rw [if_pos hk, ih]
      by_cases hq : p = q
      · simp [hq]
      · simp [hq, fsGet, show k ≠ q from hk ▸ hq]
    · rw [if_neg hk]
      simp only [fsGet]
      by_cases hkq : k = q
      · have hpq : p ≠ q := fun h => hk (by rw [hkq, h])
        simp [hkq, if_neg hpq]
      · simp [hkq, ih]

lemma fsGet_fsWrite_ne (fs : FS) (p c q : String) (h : p ≠ q) :
    fsGet (fsWrite fs p c) q = fsGet fs q := by
  simp [fsWrite, fsGet, h, fsGet_fsErase]

lemma append_bak_ne (s : String) : s ++ ".bak" ≠ s := by
  intro h
  have hl := congrArg String.length h
  rw [String.length_append] at hl
  have h4 : (".bak" : String).length = 4 := rfl
  omega

lemma append_bak_ne_empty (s : String) : s ++ ".bak" ≠ "" := by
  intro h
  have hl := congrArg String.length h
  rw [String.length_append] at hl
  have h4 : (".bak" : String).length = 4 := rfl
  have h0 : ("" : String).length = 0 := rfl
  omega

lemma tryMakedirs_ok {errOn : String → Option String} {d : String}
    (h : errOn d = none) : tryMakedirs errOn d = .ok () := by
  unfold tryMakedirs
  split
  · rfl
  · rw [h]

lemma fsGet_fsErase_self (fs : FS) (p : String) : fsGet (fsErase fs p) p = none := by
  rw [fsGet_fsErase, if_pos rfl]

/-- C2: for a selected edit, applying to a path with no existing file writes
exactly `new_content` there and adds no backup record; applying to a path
holding content `c` first renames it to `<path>.bak` (which afterwards holds
`c`), appends the record `{original_file, backup_file}`, and writes exactly
`new_content` to the target. -/
theorem apply_single_edit_spec (errOn : String → Option String)
    (folder : String) (applyDict : String → Bool) (e : ParsedEdit)
    (fs : FS) (bk : List BackupRecord)
    (hsel : applyDict e.filename = true)
    (hfp : errOn (posixJoin folder e.filename) = none)
    (hbak : errOn (posixJoin folder e.filename ++ ".bak") = none)
    (hdir : errOn (dirname (posixJoin folder e.filename)) = none) :
    (fsGet fs (posixJoin folder e.filename) = none →
      applyItems errOn folder applyDict [e] fs bk []
        = ApplyResult.ok ⟨fsWrite fs (posixJoin folder e.filename) e.new_content,
            bk, [e.filename]⟩)
    ∧ (∀ c, fsGet fs (posixJoin folder e.filename) = some c →
        ∃ st, applyItems errOn folder applyDict [e] fs bk [] = ApplyResult.ok st
          ∧ fsGet st.fs (posixJoin folder e.filename) = some e.new_content
          ∧ fsGet st.fs (posixJoin folder e.filename ++ ".bak") = some c
          ∧ st.backups = bk ++ [⟨posixJoin folder e.filename,
              posixJoin folder e.filename ++ ".bak"⟩]) := by
  constructor
  · intro hnone
    simp [applyItems, applyStep, hsel, hnone, tryMakedirs_ok hdir, tryWrite, hfp]
  · intro c hsome
    refine ⟨⟨fsWrite (fsWrite (fsErase fs (posixJoin folder e.filename))
        (posixJoin folder e.filename ++ ".bak") c)
        (posixJoin folder e.filename) e.new_content,
        bk ++ [⟨posixJoin folder e.filename, posixJoin folder e.filename ++ ".bak"⟩],
        [e.filename]⟩, ?_, ?_, ?_, rfl⟩
    · simp [applyItems, applyStep, hsel, hsome, tryRename, hfp, hbak,
        tryMakedirs_ok hdir, tryWrite]
    · exact fsGet_fsWrite_self ..
    · rw [fsGet_fsWrite_ne]
      · exact fsGet_fsWrite_self ..
      · exact (append_bak_ne _).symm

/-- Witness for C2 at a concrete filesystem holding one file. -/
theorem apply_single_edit_spec_witness :
    (applyItems (fun _ => none) "/b" (fun _ => true) [⟨"a.py", "new"⟩] [] [] []
      = ApplyResult.ok ⟨fsWrite [] "/b/a.py" "new", [], ["a.py"]⟩)
    ∧ ∃ st, applyItems (fun _ => none) "/b" (fun _ => true) [⟨"a.py", "new"⟩]
          [("/b/a.py", "old")] [] [] = ApplyResult.ok st
        ∧ fsGet st.fs "/b/a.py" = some "new"
        ∧ fsGet st.fs "/b/a.py.bak" = some "old"
        ∧ st.backups = [⟨"/b/a.py", "/b/a.py.bak"⟩] := by
  have h1 := apply_single_edit_spec (fun _ => none) "/b" (fun _ => true)
    ⟨"a.py", "new"⟩ [] [] rfl rfl rfl rfl
  have h2 := apply_single_edit_spec (fun _ => none) "/b" (fun _ => true)
    ⟨"a.py", "new"⟩ [("/b/a.py", "old")] [] rfl rfl rfl rfl
  exact ⟨h1.1 rfl, h2.2 "old" (by decide)⟩

/-- Restoring the backup record appended for `orig` puts the backed-up
content `c` back at `orig`, provided no earlier record already named the
same backup path. -/
lemma restoreBackup_found (errOn : String → Option String) (fs : FS)
    (bk : List BackupRecord) (orig bak c d : String)
    (hneq : bak ≠ orig) (hne : bak ≠ "")
    (hnoprior : ∀ r ∈ bk, r.backup_file ≠ bak)
    (horig : errOn orig = none) (hbake : errOn bak = none)
    (hbakc : fsGet fs bak = some c)
    (horigsome : fsGet fs orig = some d) :
    fsGet (restoreBackup errOn fs (bk ++ [⟨orig, bak⟩]) bak).fs orig = some c := by
  unfold restoreBackup
  have hguard : ¬ (bak = "" ∨ bk ++ [(⟨orig, bak⟩ : BackupRecord)] = []) := by
    simp [hne]
  rw [if_neg hguard]
  have hfilter : (bk ++ [(⟨orig, bak⟩ : BackupRecord)]).filter
      (fun b => decide (b.backup_file = bak)) = [⟨orig, bak⟩] := by
    rw [List.filter_append]
    have h1 : bk.filter (fun b => decide (b.backup_file = bak)) = [] :=
      List.filter_eq_nil_iff.mpr (fun r hr => by simp [hnoprior r hr])
    simp [h1]
  rw [hfilter]
  have herase : fsGet (fsErase fs orig) bak = some c := by
    rw [fsGet_fsErase, if_neg (fun h => hneq h.symm), hbakc]
  simp [horigsome, tryRemove, horig, tryRename, hbake, herase, fsGet_fsWrite_self]

/-- C6: when a file holds content `c`, a selected apply that overwrites it
creates a backup record, and restoring that backup puts content
byte-identical to `c` back at the original path. -/
theorem restore_roundtrip_spec (errOn : String → Option String)
    (folder : String) (applyDict : String → Bool) (e : ParsedEdit)
    (fs : FS) (bk : List BackupRecord) (c : String)
    (hsel : applyDict e.filename = true)
    (hfp : errOn (posixJoin folder e.filename) = none)
    (hbak : errOn (posixJoin folder e.filename ++ ".bak") = none)
    (hdir : errOn (dirname (posixJoin folder e.filename)) = none)
    (hexists : fsGet fs (posixJoin folder e.filename) = some c)
    (hnoprior : ∀ r ∈ bk, r.backup_file ≠ posixJoin folder e.filename ++ ".bak") :
    ∃ st, applyItems errOn folder applyDict [e] fs bk [] = ApplyResult.ok st
      ∧ fsGet (restoreBackup errOn st.fs st.backups
            (posixJoin folder e.filename ++ ".bak")).fs
          (posixJoin folder e.filename) = some c := by
  refine ⟨⟨fsWrite (fsWrite (fsErase fs (posixJoin folder e.filename))
      (posixJoin folder e.filename ++ ".bak") c)
      (posixJoin folder e.filename) e.new_content,
      bk ++ [⟨posixJoin folder e.filename, posixJoin folder e.filename ++ ".bak"⟩],
      [e.filename]⟩, ?_, ?_⟩
  · simp [applyItems, applyStep, hsel, hexists, tryRename, hfp, hbak,
      tryMakedirs_ok hdir, tryWrite]
  · apply restoreBackup_found
    · exact append_bak_ne _
    · exact append_bak_ne_empty _
    · exact hnoprior
    · exact hfp
    · exact hbak
    · rw [fsGet_fsWrite_ne _ _ _ _ (append_bak_ne _).symm]
      exact fsGet_fsWrite_self ..
    · exact fsGet_fsWrite_self ..

/-- Witness for C6: apply over existing content "old", restore, read "old"
back. -/
theorem restore_roundtrip_spec_witness :
    ∃ st, applyItems (fun _ => none) "/b" (fun _ => true) [⟨"a.py", "new"⟩]
        [("/b/a.py", "old")] [] [] = ApplyResult.ok st
      ∧ fsGet (restoreBackup (fun _ => none) st.fs st.backups "/b/a.py.bak").fs
          "/b/a.py" = some "old" := by
  have h := restore_roundtrip_spec (fun _ => none) "/b" (fun _ => true)
    ⟨"a.py", "new"⟩ [("/b/a.py", "old")] [] "old"
    rfl rfl rfl rfl (by decide) (by simp)
  exact h

lemma applyItems_append (errOn : String → Option String) (folder : String)
    (applyDict : String → Bool) (xs : List ParsedEdit) :
    ∀ (ys : List ParsedEdit) (fs : FS) (bk : List BackupRecord)
      (ap : List String),
      applyItems errOn folder applyDict (xs ++ ys) fs bk ap
        = match applyItems errOn folder applyDict xs fs bk ap with
          | .ok st => applyItems errOn folder applyDict ys st.fs st.backups st.applied
          | .err m st => .err m st := by
  induction xs with
  | nil => intro ys fs bk ap; simp [applyItems]
  | cons x xs ih =>
    intro ys fs bk ap
    simp only [List.cons_append, applyItems]
    cases hd : applyDict x.filename with
    | false => simp only [Bool.false_eq_true, if_false]; exact ih ys fs bk ap
    | true =>
      simp only [if_true]
      cases hstep : applyStep errOn folder x fs bk ap with
      | error p => obtain ⟨m, st⟩ := p; simp
      | ok st => exact ih ys st.fs st.backups st.applied

/-- C7: when an OS call raises while applying one selected edit, the loop
aborts immediately: later edits are not processed (the result does not
depend on them), the message names that edit's filename and the underlying
error, and the filesystem and backup list are exactly the ones the earlier
edits of the same apply produced (no rollback). -/
theorem apply_error_aborts_spec (errOn : String → Option String)
    (folder : String) (applyDict : String → Bool)
    (goods : List ParsedEdit) (bad : ParsedEdit) (emsg : String)
    (fs0 fs : FS) (bk0 bk : List BackupRecord) (ap : List String)
    (hgoods : applyItems errOn folder applyDict goods fs0 bk0 []
      = ApplyResult.ok ⟨fs, bk, ap⟩)
    (hsel : applyDict bad.filename = true)
    (herr : errOn (posixJoin folder bad.filename) = some emsg)
    (hdir : errOn (dirname (posixJoin folder bad.filename)) = none) :
    ∀ rest, applyItems errOn folder applyDict (goods ++ bad :: rest) fs0 bk0 []
      = ApplyResult.err ("Error applying changes to " ++ bad.filename ++ ": " ++ emsg)
          ⟨fs, bk, ap⟩ := by
  intro rest
  rw [applyItems_append, hgoods]
  cases hex : fsGet fs (posixJoin folder bad.filename) with
  | none =>
    simp [applyItems, applyStep, hsel, hex, tryMakedirs_ok hdir, tryWrite, herr]
  | some c =>
    simp [applyItems, applyStep, hsel, hex, tryRename, herr]

/-- Witness for C7: the first edit is written, the second fails, the third
never runs. -/
theorem apply_error_aborts_spec_witness :
    applyItems (fun p => if p = "/base/bad.txt" then some "Permission denied" else none)
      "/base" (fun _ => true)
      [⟨"good.txt", "g"⟩, ⟨"bad.txt", "b"⟩, ⟨"later.txt", "l"⟩] [] [] []
      = ApplyResult.err "Error applying changes to bad.txt: Permission denied"
          ⟨[("/base/good.txt", "g")], [], ["good.txt"]⟩ := by
  have h := apply_error_aborts_spec
    (fun p => if p = "/base/bad.txt" then some "Permission denied" else none)
    "/base" (fun _ => true) [⟨"good.txt", "g"⟩] ⟨"bad.txt", "b"⟩ "Permission denied"
    [] [("/base/good.txt", "g")] [] [] ["good.txt"]
    (by decide) rfl (by decide) (by decide) [⟨"later.txt", "l"⟩]
  exact h.trans (by decide)

/-- C8 counterexample: with an empty backup list no record matches the
selected backup path, yet the failure message is the no-backup-selected one,
not the "Backup file not found in records." message the claim requires. -/
theorem restore_not_found_counterexample :
    (restoreBackup (fun _ => none) [] [] "missing.bak").msg
        = "No backup selected or no backups available."
      ∧ (restoreBackup (fun _ => none) [] [] "missing.bak").msg
        ≠ "Backup file not found in records." := by decide

/-- C8 amended: the backup list is returned unchanged on every path (the
matched record is never removed); with a non-empty selection and a non-empty
list, no matching record gives exactly the not-found message; and for the
first matching record, restore deletes any file at the original path and
renames the backup back, so the original path holds the backup's content and
the backup path no longer exists. -/
theorem restore_spec (errOn : String → Option String) (fs : FS)
    (backups : List BackupRecord) (selected : String) :
    (restoreBackup errOn fs backups selected).backups = backups
    ∧ (selected ≠ "" → backups ≠ [] →
        backups.filter (fun b => decide (b.backup_file = selected)) = [] →
        restoreBackup errOn fs backups selected
          = ⟨"Backup file not found in records.", backups, fs⟩)
    ∧ (∀ r tl c,
        backups.filter (fun b => decide (b.backup_file = selected)) = r :: tl →
        selected ≠ "" →
        errOn r.original_file = none → errOn r.backup_file = none →
        fsGet fs r.backup_file = some c →
        r.backup_file ≠ r.original_file →
        fsGet (restoreBackup errOn fs backups selected).fs r.original_file = some c
        ∧ fsGet (restoreBackup errOn fs backups selected).fs r.backup_file = none) := by
  refine ⟨?_, ?_, ?_⟩
  · unfold restoreBackup
    split
    · rfl
    · split
      · rfl
      · dsimp only
        split
        · split
          · rfl
          · split
            · rfl
            · rfl
        · split
          · rfl
          · rfl
  · intro hsel hne hfil
    unfold restoreBackup
    rw [if_neg (by simp [hsel, hne]), hfil]
  · intro r tl c hfil hsel horig hbake hbakc hneq
    have hne : backups ≠ [] := by
      intro h
      rw [h] at hfil
      cases hfil
    unfold restoreBackup
    rw [if_neg (by simp [hsel, hne]), hfil]
    dsimp only
    cases hex : fsGet fs r.original_file with
    | none =>
      simp [hex, tryRename, hbake, horig, hbakc, fsGet_fsWrite_self]
      rw [fsGet_fsWrite_ne _ _ _ _ (fun h => hneq h.symm), fsGet_fsErase,
        if_pos rfl]
    | some d =>
      have herase : fsGet (fsErase fs r.original_file) r.backup_file = some c := by
        rw [fsGet_fsErase, if_neg (fun h => hneq h.symm), hbakc]
      simp [hex, tryRemove, horig, tryRename, hbake, herase]
      constructor
      · exact fsGet_fsWrite_self ..
      · rw [fsGet_fsWrite_ne _ _ _ _ (fun h => hneq h.symm), fsGet_fsErase,
          if_pos rfl]

/-- Witness for C8: the three parts at concrete inputs — list returned
unchanged, exact not-found message, and a successful restore moving the
backup's content back. -/
theorem restore_spec_witness :
    (restoreBackup (fun _ => none) [("/b/f.txt", "new"), ("/b/f.txt.bak", "old")]
        [⟨"/b/f.txt", "/b/f.txt.bak"⟩] "/b/f.txt.bak").backups
      = [⟨"/b/f.txt", "/b/f.txt.bak"⟩]
    ∧ restoreBackup (fun _ => none) [] [⟨"/x", "/x.bak"⟩] "/nope.bak"
      = ⟨"Backup file not found in records.", [⟨"/x", "/x.bak"⟩], []⟩
    ∧ fsGet (restoreBackup (fun _ => none)
        [("/b/f.txt", "new"), ("/b/f.txt.bak", "old")]
        [⟨"/b/f.txt", "/b/f.txt.bak"⟩] "/b/f.txt.bak").fs "/b/f.txt" = some "old" := by
  have h1 := restore_spec (fun _ => none)
    [("/b/f.txt", "new"), ("/b/f.txt.bak", "old")]
    [⟨"/b/f.txt", "/b/f.txt.bak"⟩] "/b/f.txt.bak"
  have h2 := restore_spec (fun _ => none) ([] : FS) [⟨"/x", "/x.bak"⟩] "/nope.bak"
  refine ⟨h1.1, h2.2.1 (by decide) (by decide) (by decide), ?_⟩
  exact (h1.2.2 ⟨"/b/f.txt", "/b/f.txt.bak"⟩ [] "old" (by decide) (by decide)
    (by decide) (by decide) (by decide) (by decide)).1

/-- C10: the apply loop computes each target as `os.path.join` of the base
folder and the parsed filename, with no normalization or containment check:
an absolute filename is written entirely outside the base directory, and a
filename with ".." components keeps them verbatim in the joined path. -/
theorem apply_path_join_escape :
    (applyItems (fun _ => none) "/base" (fun _ => true)
        [⟨"/etc/target", "x"⟩] [] [] []
      = ApplyResult.ok ⟨[("/etc/target", "x")], [], ["/etc/target"]⟩)
    ∧ pyStartsWith "/etc/target" "/base" = false
    ∧ posixJoin "/base" "/etc/target" = "/etc/target"
    ∧ posixJoin "/base" "../escape" = "/base/../escape" := by decide

end Prompter
